import Mathlib

/-!
Verification of the VintScout (VintedScanner Web) core against its
natural-language specification.

The repository's backend service layer is embedded shallowly:

* `BrandService.search_brands` and `CategoryService.get_category_tree` /
  `_cache_categories` / `_build_tree` are translated from the Python code in
  `docs/DEPLOYMENT.md` (the repository keeps the backend service code there).
* The frontend API client's response interceptor is translated from
  `frontend/src/lib/api.ts`.
* The alert interval bound comes from the `valid_interval` CHECK constraint in
  the schema and the check-interval options of `CreateAlertPage.tsx`.
* The scan executor and the per-country rate gate of `VintedClient` are not
  present in the repository snapshot (only their documentation and callers
  are); they are modelled from the spec, and marked as such.

Timestamps are natural numbers (days for catalog freshness, seconds for the
rate gate); machine-level detail (UUID generation, SQL, HTTP) is modelled by
explicit state passing over Lean lists.
-/

namespace VintScout

/-! ## String matching: SQL `ILIKE '%query%'` as case-insensitive substring -/

/-- `a` is a prefix of `b` (on character lists). -/
def prefixCL : List Char → List Char → Bool
  | [], _ => true
  | _ :: _, [] => false
  | a :: as, b :: bs => a == b && prefixCL as bs

/-- `needle` occurs as a contiguous sublist of `hay`. -/
def hasSub : List Char → List Char → Bool
  | hay, needle =>
    match hay with
    | [] => needle.isEmpty
    | _ :: t => prefixCL needle hay || hasSub t needle

/-- A string's characters, lowercased. -/
def lowerCL (s : String) : List Char := s.data.map Char.toLower

/-- SQL `name ILIKE '%query%'`: case-insensitive substring match, as used by
`BrandService.search_brands` in `docs/DEPLOYMENT.md`. -/
def ilikeContains (name query : String) : Bool :=
  hasSub (lowerCL name) (lowerCL query)

/-! ## Brand cache (`brands` table and `BrandService`, docs/DEPLOYMENT.md) -/

/-- A row of the `brands` table. `updated_at` is a day-resolution timestamp;
the schema keeps it for cache invalidation (TTL 30 days per the docs). -/
structure Brand where
  vinted_id : String
  name : String
  country_code : String
  item_count : Nat
  is_popular : Bool
  updated_at : Nat
  deriving DecidableEq, Repr

/-- One entry of the provider's brand-search response
(`data.get('brands', [])` in `VintedClient.search_brands`). -/
structure BrandData where
  id : String
  title : String
  item_count : Nat
  deriving DecidableEq, Repr

/-- The documented brand-cache TTL (`BRAND_CACHE_TTL_DAYS=30`,
"Automatically caches results for 30 days"). The service code never
consults it. -/
def BRAND_CACHE_TTL_DAYS : Nat := 30

/-- The cache query of `BrandService.search_brands`:
`query(Brand).filter(Brand.name.ilike(f"%{query}%"), Brand.country_code ==
country_code).limit(limit).all()`. -/
def cachedBrandQuery (store : List Brand) (query country : String) (lim : Nat) :
    List Brand :=
  ((store.filter fun b => ilikeContains b.name query && b.country_code == country).take lim)

/-- Upsert on the `UNIQUE(vinted_id, country_code)` key of the `brands`
table (`db.merge`). -/
def upsertBrand (store : List Brand) (b : Brand) : List Brand :=
  if store.any fun x => x.vinted_id == b.vinted_id && x.country_code == b.country_code then
    store.map fun x =>
      if x.vinted_id == b.vinted_id && x.country_code == b.country_code then b else x
  else
    store ++ [b]

/-- `BrandService.search_brands` (docs/DEPLOYMENT.md, backend/services/
brand_service.py). Returns `((brands, from_cache), new store)`. The live
fetch through `VintedClient` is passed in as `fetch`; an `Except.error`
models the exception path (`except Exception: return [], False`), which
leaves the store uncommitted. Note: the cache path has no freshness check. -/
def search_brands (store : List Brand) (query country : String) (lim : Nat)
    (fetch : Except String (List BrandData)) (now : Nat) :
    (List Brand × Bool) × List Brand :=
  let cached := cachedBrandQuery store query country lim
  if cached ≠ [] then
    ((cached, true), store)
  else
    match fetch with
    | .error _ => (([], false), store)
    | .ok api_brands =>
      let fresh := api_brands.map fun d =>
        { vinted_id := d.id, name := d.title, country_code := country,
          item_count := d.item_count, is_popular := false, updated_at := now : Brand }
      ((fresh, false), fresh.foldl upsertBrand store)

/-- The spec's tie-break policy for name matches: popularity flag first, then
alphabetical. Stated from the spec for comparison with the code. -/
def popThenAlpha (a b : Brand) : Prop :=
  (a.is_popular ∧ ¬ b.is_popular) ∨ (a.is_popular = b.is_popular ∧ a.name ≤ b.name)

instance : DecidableRel popThenAlpha := fun a b => by
  unfold popThenAlpha
  infer_instance

/-! ## Category cache (`categories` table and `CategoryService`) -/

/-- A row of the `categories` table. `id` is the surrogate primary key
(UUIDs modelled as distinct naturals); `parent_id` is the self-referencing
foreign key; `level` is the tree depth (0 = root); `path` the materialized
path string. -/
structure Category where
  id : Nat
  vinted_id : String
  name : String
  country_code : String
  parent_id : Option Nat
  level : Nat
  path : String
  item_count : Nat
  deriving DecidableEq, Repr

/-- One node of the provider's category-tree response: id, title,
item_count and nested `catalogs` children. -/
inductive CatData where
  | node (id title : String) (item_count : Nat) (children : List CatData)
  deriving Repr

/-- `CategoryService._cache_categories` (docs/DEPLOYMENT.md): recursively
flatten the provider tree into `categories` rows. The first component of the
result is the list of rows produced; the second threads the fresh-id counter
(each `db.merge` of a new row allocates a fresh primary key). `pid` is the
`parent_id` passed down, `lvl` the `level`, `pre` the `path_prefix`. -/
def cacheCategories :
    List CatData → String → Option Nat → Nat → String → Nat → List Category × Nat
  | [], _, _, _, _, ctr => ([], ctr)
  | .node vid title cnt children :: cs, cc, pid, lvl, pre, ctr =>
    let path := pre ++ "/" ++ title
    let row : Category :=
      { id := ctr, vinted_id := vid, name := title, country_code := cc,
        parent_id := pid, level := lvl, path := path, item_count := cnt }
    let resChildren := cacheCategories children cc (some ctr) (lvl + 1) path (ctr + 1)
    let resRest := cacheCategories cs cc pid lvl pre resChildren.2
    (row :: (resChildren.1 ++ resRest.1), resRest.2)

/-- A node of the hierarchical structure returned by
`CategoryService._build_tree`. -/
structure TreeNode where
  vinted_id : String
  name : String
  level : Nat
  item_count : Nat
  children : List TreeNode
  deriving Repr

/-- `CategoryService._build_tree`: convert the flat row list to a nested
structure; a row's children are the rows whose `parent_id` points at it.
`fuel` bounds the recursion depth (the Python code relies on the stored
forest being acyclic, which is proved below). -/
def buildTree (store : List Category) : Nat → List Category → List TreeNode
  | 0, _ => []
  | fuel + 1, cats =>
    cats.map fun c =>
      { vinted_id := c.vinted_id, name := c.name, level := c.level,
        item_count := c.item_count,
        children := buildTree store fuel (store.filter fun r => r.parent_id == some c.id) }

/-- The next fresh surrogate key for the `categories` store. -/
def freshCatId (store : List Category) : Nat :=
  (store.map Category.id).foldl (fun a b => max a b + 1) 0

/-- `CategoryService.get_category_tree` (docs/DEPLOYMENT.md). Returns the
nested tree and the updated store. The live fetch is passed in as `fetch`;
`Except.error` models the exception path (`except Exception: return []`). -/
def get_category_tree (store : List Category) (cc : String) (force : Bool)
    (fetch : Except String (List CatData)) : List TreeNode × List Category :=
  let cachedRoots := store.filter fun r => r.country_code == cc && r.level == 0
  if !force && cachedRoots ≠ [] then
    (buildTree store store.length cachedRoots, store)
  else
    match fetch with
    | .error _ => ([], store)
    | .ok api_cats =>
      let rows := (cacheCategories api_cats cc none 0 "" (freshCatId store)).1
      let store' := store ++ rows
      let roots := store'.filter fun r => r.country_code == cc && r.level == 0
      (buildTree store' store'.length roots, store')

/-- `p` is a (proper) ancestor of `r` through the `parent_id` links of
`rows`. -/
inductive IsAncestor (rows : List Category) : Category → Category → Prop
  | parent {p r : Category} : p ∈ rows → r ∈ rows → r.parent_id = some p.id →
      IsAncestor rows p r
  | trans {p q r : Category} : IsAncestor rows p q → IsAncestor rows q r →
      IsAncestor rows p r

/-! ## Scan executor (modelled from the spec)

The backend `scanner.py` dedup/recording loop is not in the repository
snapshot (docs/DEPLOYMENT.md shows `scan_alert` up to "... rest of
deduplication and notification logic"); the definitions below are modelled
from the spec, against the in-repository `item_history` schema
(`UNIQUE(alert_id, item_id)`) and the frontend's baseline indicator
(`AlertCard.getStatusText`). -/

/-- A provider listing, keyed by Vinted's numeric item id. -/
structure Listing where
  item_id : Nat
  title : String
  deriving DecidableEq, Repr

/-- A row of the `item_history` dedup table: composite key
`(alert_id, item_id)`. -/
structure SeenListing where
  alert_id : String
  item_id : Nat
  deriving DecidableEq, Repr

/-- The alert fields the scan executor touches. -/
structure Alert where
  id : String
  is_active : Bool
  last_checked_at : Option Nat
  check_interval_minutes : Nat
  last_found_count : Nat
  deriving DecidableEq, Repr

/-- The scan executor's report: newly discovered items, or an error. -/
structure ScanResult where
  newItems : List Listing
  error : Option String
  deriving DecidableEq, Repr

/-- Modelled from the spec: the Scan Executor's candidate loop — for each
candidate, check the Result Store for a `SeenListing` with the same
`(alert, listing id)` key; unseen candidates are recorded (insert-if-absent
on the composite key) and collected. Returns the unseen candidates and the
updated store. -/
def scanLoop (aid : String) (seen : List SeenListing) :
    List Listing → List Listing × List SeenListing
  | [] => ([], seen)
  | c :: cs =>
    if seen.any fun s => s.alert_id == aid && s.item_id == c.item_id then
      scanLoop aid seen cs
    else
      let rest := scanLoop aid (seen ++ [{ alert_id := aid, item_id := c.item_id }]) cs
      (c :: rest.1, rest.2)

/-- Modelled from the spec: `run(alert) -> ScanResult{newItems, error}` of
the Scan Executor (backend scanner service, absent from the snapshot).
A `SessionError` from the provider call (`Except.error`) populates
`ScanResult.error` with zero new items and leaves the store untouched; a
successful call records unseen candidates, and the first-run policy
(`last_checked_at` unset) reports none of them as new. In every case
`last_checked_at` is advanced to `now`. Returns
`(result, updated alert, updated store)`. -/
def runScan (alert : Alert) (seen : List SeenListing)
    (fetch : Except String (List Listing)) (now : Nat) :
    ScanResult × Alert × List SeenListing :=
  match fetch with
  | .error e =>
    ({ newItems := [], error := some e },
     { alert with last_checked_at := some now }, seen)
  | .ok candidates =>
    let res := scanLoop alert.id seen candidates
    let reported := if alert.last_checked_at = none then [] else res.1
    ({ newItems := reported, error := none },
     { alert with last_checked_at := some now, last_found_count := reported.length },
     res.2)

/-- The `UNIQUE(alert_id, item_id)` invariant of `item_history`: no two rows
share the composite key. -/
def keysUnique (l : List SeenListing) : Prop :=
  l.Pairwise fun a b => ¬ (a.alert_id = b.alert_id ∧ a.item_id = b.item_id)

/-! ## Per-country rate gate (modelled from the spec)

`VintedClient`'s session/rate-limit handling is backend code absent from the
snapshot; the architecture doc records its contract ("Respect rate limits:
30s minimum between API calls per country"). The gate is modelled as a
transition system: a call for a segment may complete at time `t` only if at
least `minCallInterval` has elapsed since the segment's last call, and the
segment's last-call timestamp is updated atomically with the call. -/

/-- The configured minimum spacing between external calls for one segment,
in seconds. -/
def minCallInterval : Nat := 30

/-- Modelled from the spec: the Segment Session Manager's per-segment state —
the timestamp of each segment's last successful external call. -/
structure GateState where
  lastCall : String → Option Nat

/-- The gate state before any call. -/
def initGate : GateState := { lastCall := fun _ => none }

/-- Modelled from the spec: one external call completing at time `t` for
segment `seg`. It is enabled only once the minimum interval has elapsed
since that segment's last call (the manager blocks the caller until then),
and it updates the segment's last-call timestamp atomically. -/
inductive GateStep : GateState → String × Nat → GateState → Prop
  | call (s : GateState) (seg : String) (t : Nat)
      (h : ∀ l, s.lastCall seg = some l → l + minCallInterval ≤ t) :
      GateStep s (seg, t)
        { lastCall := fun x => if x = seg then some t else s.lastCall x }

/-- A sequence of external calls admitted by the gate, in completion order
(concurrent callers for one segment serialize through the gate, so every
interleaving of scheduled alerts yields such a trace). -/
inductive ValidTrace : GateState → List (String × Nat) → Prop
  | nil (s : GateState) : ValidTrace s []
  | cons {s s' : GateState} {e : String × Nat} {evs : List (String × Nat)} :
      GateStep s e s' → ValidTrace s' evs → ValidTrace s (e :: evs)

/-- The completion times of the calls of one segment, in trace order. -/
def segTimes (seg : String) (evs : List (String × Nat)) : List Nat :=
  (evs.filter fun e => e.1 = seg).map Prod.snd

/-! ## Alert poll cadence bounds -/

/-- The schema's `CONSTRAINT valid_interval CHECK (check_interval_minutes
>= 5)` on the `alerts` table (docs/DEPLOYMENT.md). -/
def valid_interval (n : Int) : Prop := 5 ≤ n

instance : DecidablePred valid_interval := fun n => by
  unfold valid_interval
  infer_instance

/-- The check-interval options offered by the frontend's create form
(`CreateAlertPage.tsx`): 1, 5, 15, 30, 60 minutes. -/
def intervalOptions : List Nat := [1, 5, 15, 30, 60]

/-! ## Frontend API client response interceptor (frontend/src/lib/api.ts) -/

/-- The tokens the client keeps in `localStorage`. -/
structure ClientState where
  access_token : Option String
  refresh_token : Option String
  deriving DecidableEq, Repr

/-- An HTTP error response: status code plus an opaque payload identifying
the error object. -/
structure HttpError where
  status : Nat
  payload : String
  deriving DecidableEq, Repr

/-- The environment of one interceptor activation: the outcome of the
`/api/auth/refresh` call (new access token, or failure payload) and the
outcome of replaying the original request. -/
structure InterceptorEnv where
  refreshResult : Except String String
  retryResult : Except HttpError String
  deriving Repr

/-- What the interceptor chain ultimately does with an error. -/
inductive InterceptorAction where
  | resolved (body : String) (st : ClientState)
  | rejected (e : HttpError) (st : ClientState)
  | redirectLogin (refreshFailure : String) (st : ClientState)
  deriving DecidableEq, Repr

/-- The response interceptor of `frontend/src/lib/api.ts`, as a function of
the error it receives and the `_retry` flag on the originating request.
On a 401 with `_retry` unset it marks the request retried, calls the
refresh endpoint, stores the new access token and replays the request (a
failure of the replay re-enters the interceptor with `_retry` set); if the
refresh fails it removes both tokens and redirects to `/login`, rejecting
with the refresh error; every other error is rejected unchanged. -/
def handleResponseError (st : ClientState) (e : HttpError) (env : InterceptorEnv) :
    Bool → InterceptorAction
  | true => .rejected e st
  | false =>
    if e.status == 401 then
      match env.refreshResult with
      | .ok tok =>
        let st' : ClientState := { st with access_token := some tok }
        match env.retryResult with
        | .ok body => .resolved body st'
        | .error e2 => handleResponseError st' e2 env true
      | .error rerr =>
        .redirectLogin rerr { access_token := none, refresh_token := none }
    else
      .rejected e st
termination_by retried => if retried then 0 else 1
decreasing_by simp

/-! ## Concrete sample data used to instantiate the theorems -/

/-- A popular cached brand, last refreshed at day 0. -/
def brandPopNike : Brand :=
  { vinted_id := "53", name := "Nike", country_code := "fr", item_count := 12459,
    is_popular := true, updated_at := 0 }

/-- A non-popular cached brand whose name also matches the query "nike". -/
def brandPlainNike : Brand :=
  { vinted_id := "99", name := "Nike Air", country_code := "fr", item_count := 5,
    is_popular := false, updated_at := 0 }

/-- A sample provider listing with numeric id `i`. -/
def mkListing (i : Nat) : Listing := { item_id := i, title := "x" }

/-- Fifty candidate listings. -/
def cands50 : List Listing := (List.range 50).map mkListing

/-- The same fifty candidates plus three previously unseen ones. -/
def cands53 : List Listing := (List.range 53).map mkListing

/-- A sample alert that has never been checked. -/
def alertA : Alert :=
  { id := "a1", is_active := true, last_checked_at := none,
    check_interval_minutes := 15, last_found_count := 0 }

/-- A sample provider category tree: one root with one child. -/
def catsW : List CatData := [.node "10" "Women" 5 [.node "11" "Shoes" 3 []]]

/-- The row cached for the root of `catsW`. -/
def rowW0 : Category :=
  { id := 0, vinted_id := "10", name := "Women", country_code := "fr",
    parent_id := none, level := 0, path := "/Women", item_count := 5 }

/-- The row cached for the child of `catsW`. -/
def rowW1 : Category :=
  { id := 1, vinted_id := "11", name := "Shoes", country_code := "fr",
    parent_id := some 0, level := 1, path := "/Women/Shoes", item_count := 3 }

/-- A sample interleaved trace: two calls for segment "fr" thirty seconds
apart, with a "de" call in between. -/
def traceW : List (String × Nat) := [("fr", 0), ("de", 5), ("fr", 30)]

/-- The gate state after the first sample call. -/
def gateS1 : GateState :=
  { lastCall := fun x => if x = "fr" then some 0 else initGate.lastCall x }

/-- The gate state after the second sample call. -/
def gateS2 : GateState :=
  { lastCall := fun x => if x = "de" then some 5 else gateS1.lastCall x }

/-- The gate state after the third sample call. -/
def gateS3 : GateState :=
  { lastCall := fun x => if x = "fr" then some 30 else gateS2.lastCall x }

/-! ## Theorems -/

/-- C8: every alert accepted by the system has a poll cadence of at least
one minute — any `check_interval_minutes` admitted by the schema's
`valid_interval` CHECK constraint is at least 1, and every option the
frontend's create form offers is at least 1, so no alert can be created or
updated with a smaller interval. -/
theorem alert_interval_min_bound :
    (∀ n : Int, valid_interval n → 1 ≤ n) ∧ ∀ n ∈ intervalOptions, 1 ≤ n := by
  constructor
  · intro n h
    unfold valid_interval at h
    omega
  · intro n h
    simp [intervalOptions] at h
    rcases h with rfl | rfl | rfl | rfl | rfl <;> decide

/-- Witness for C8: the default 15-minute cadence passes the CHECK
constraint and is at least a minute, and so is the smallest frontend
option. -/
theorem alert_interval_min_bound_witness :
    valid_interval 15 ∧ (1 : Int) ≤ 15 ∧ 1 ∈ intervalOptions ∧ (1 : Nat) ≤ 1 :=
  ⟨by decide, alert_interval_min_bound.1 15 (by decide), by decide,
   alert_interval_min_bound.2 1 (by decide)⟩

/-- C6: a scan run that fails with a `SessionError` returns a `ScanResult`
with its error populated and zero new items, leaves the alert's `is_active`
flag and the seen-listing history unchanged, and still advances the alert's
`last_checked_at`; no scan outcome whatsoever changes `is_active`, so an
alert is never automatically disabled. -/
theorem scan_session_error_semantics :
    ∀ (alert : Alert) (seen : List SeenListing) (e : String) (now : Nat),
      (runScan alert seen (.error e) now).1.error = some e ∧
      (runScan alert seen (.error e) now).1.newItems = [] ∧
      (runScan alert seen (.error e) now).2.1.is_active = alert.is_active ∧
      (runScan alert seen (.error e) now).2.1.last_checked_at = some now ∧
      (runScan alert seen (.error e) now).2.2 = seen ∧
      ∀ fetch : Except String (List Listing),
        (runScan alert seen fetch now).2.1.is_active = alert.is_active := by
  intro alert seen e now
  refine ⟨rfl, rfl, rfl, rfl, rfl, ?_⟩
  intro fetch
  cases fetch <;> rfl

/-- C4: the brand lookup's cache path has no freshness check — a cached
match 40 days old (beyond the documented 30-day TTL) is still returned
tagged as coming from the cache, with no live fetch and no refresh of the
freshness timestamp. -/
theorem brand_ttl_not_enforced :
    (search_brands [brandPopNike] "nike" "fr" 10 (.ok []) 40).1 = ([brandPopNike], true) ∧
    (search_brands [brandPopNike] "nike" "fr" 10 (.ok []) 40).2 = [brandPopNike] ∧
    BRAND_CACHE_TTL_DAYS < 40 - brandPopNike.updated_at := by
  refine ⟨?_, ?_, by decide⟩ <;> decide

/-- C9 counterexample: with two cached brands both matching "nike", one
popular and one not, the lookup returns them in store order — the
non-popular one first — so the result is not ordered popularity-first. -/
theorem brand_order_claim_false :
    ¬ (search_brands [brandPlainNike, brandPopNike] "nike" "fr" 10
        (.ok []) 0).1.1.Pairwise popThenAlpha := by
  decide

/-- C9 (amended): on a cache hit the lookup returns the matching entries in
store order, truncated to the limit — no popularity-first or alphabetical
re-ordering is applied, so the result is always an in-order sublist of the
store. -/
theorem brand_cache_hit_store_order :
    ∀ (store : List Brand) (q cc : String) (lim : Nat)
      (fetch : Except String (List BrandData)) (now : Nat),
      cachedBrandQuery store q cc lim ≠ [] →
      (search_brands store q cc lim fetch now).1 = (cachedBrandQuery store q cc lim, true) ∧
      (search_brands store q cc lim fetch now).1.1.Sublist store := by
  intro store q cc lim fetch now h
  have hres : (search_brands store q cc lim fetch now).1 =
      (cachedBrandQuery store q cc lim, true) := by
    simp [search_brands, h]
  refine ⟨hres, ?_⟩
  rw [hres]
  exact ((List.take_sublist _ _).trans (List.filter_sublist _))

/-- Witness for C9's amended statement: two cached brands matching "nike"
come back in store order as a sublist of the store. -/
theorem brand_cache_hit_store_order_witness :
    cachedBrandQuery [brandPlainNike, brandPopNike] "nike" "fr" 10 ≠ [] ∧
    (search_brands [brandPlainNike, brandPopNike] "nike" "fr" 10 (.ok []) 0).1 =
      (cachedBrandQuery [brandPlainNike, brandPopNike] "nike" "fr" 10, true) ∧
    (search_brands [brandPlainNike, brandPopNike] "nike" "fr" 10
      (.ok []) 0).1.1.Sublist [brandPlainNike, brandPopNike] :=
  ⟨by decide,
   (brand_cache_hit_store_order [brandPlainNike, brandPopNike] "nike" "fr" 10
     (.ok []) 0 (by decide)).1,
   (brand_cache_hit_store_order [brandPlainNike, brandPopNike] "nike" "fr" 10
     (.ok []) 0 (by decide)).2⟩

/-- C5: on a cold cache (no matching cached entries) a live-fetch failure
yields an empty result and an unchanged store rather than propagating an
error, both for the brand lookup and for the category tree. -/
theorem cold_cache_fetch_failure_empty :
    (∀ (store : List Brand) (q cc : String) (lim : Nat) (err : String) (now : Nat),
      cachedBrandQuery store q cc lim = [] →
      search_brands store q cc lim (.error err) now = (([], false), store)) ∧
    ∀ (store : List Category) (cc : String) (force : Bool) (err : String),
      store.filter (fun r => r.country_code == cc && r.level == 0) = [] →
      get_category_tree store cc force (.error err) = ([], store) := by
  constructor
  · intro store q cc lim err now h
    simp [search_brands, h]
  · intro store cc force err h
    simp [get_category_tree, h]

/-- Witness for C5: an empty store with a failing fetch returns empty for
both paths. -/
theorem cold_cache_fetch_failure_empty_witness :
    cachedBrandQuery [] "nike" "fr" 10 = [] ∧
    search_brands [] "nike" "fr" 10 (.error "timeout") 0 = (([], false), []) ∧
    List.filter (fun r => r.country_code == "fr" && r.level == 0) ([] : List Category) = [] ∧
    get_category_tree [] "fr" false (.error "timeout") = ([], []) :=
  ⟨rfl, cold_cache_fetch_failure_empty.1 [] "nike" "fr" 10 "timeout" 0 rfl, rfl,
   cold_cache_fetch_failure_empty.2 [] "fr" false "timeout" rfl⟩

/-- C10: the frontend API client's response interceptor — a 401 on a
not-yet-retried request triggers exactly one token refresh; on refresh
success the new access token is stored and the original request replayed
(its success resolves, and any error of the replay — a second 401 included —
is rejected to the caller unchanged); on refresh failure both stored tokens
are removed and the browser is redirected to `/login`; any non-401 error,
or any error on an already-retried request, is rejected unchanged. -/
theorem api_401_refresh_once :
    ∀ (st : ClientState) (e : HttpError) (env : InterceptorEnv),
      (e.status = 401 →
        (∀ tok, env.refreshResult = .ok tok →
          (∀ body, env.retryResult = .ok body →
            handleResponseError st e env false =
              .resolved body { st with access_token := some tok }) ∧
          ∀ e2, env.retryResult = .error e2 →
            handleResponseError st e env false =
              .rejected e2 { st with access_token := some tok }) ∧
        ∀ rerr, env.refreshResult = .error rerr →
          handleResponseError st e env false =
            .redirectLogin rerr { access_token := none, refresh_token := none }) ∧
      (e.status ≠ 401 → handleResponseError st e env false = .rejected e st) ∧
      handleResponseError st e env true = .rejected e st := by
  intro st e env
  refine ⟨?_, ?_, ?_⟩
  · intro h401
    constructor
    · intro tok hr
      constructor
      · intro body hretry
        simp [handleResponseError, h401, hr, hretry]
      · intro e2 hretry
        simp [handleResponseError, h401, hr, hretry]
    · intro rerr hr
      simp [handleResponseError, h401, hr]
  · intro hne
    simp [handleResponseError, hne]
  · simp [handleResponseError]

/-- Witness for C10: with a 401, a successful refresh and a successful
replay, the interceptor resolves with the replay's body and the new access
token stored. -/
theorem api_401_refresh_once_witness :
    (401 : Nat) = 401 ∧
    InterceptorEnv.refreshResult ⟨.ok "newtok", .ok "body"⟩ = .ok "newtok" ∧
    InterceptorEnv.retryResult ⟨.ok "newtok", .ok "body"⟩ = .ok "body" ∧
    handleResponseError ⟨some "old", some "rtok"⟩ ⟨401, "unauthorized"⟩
      ⟨.ok "newtok", .ok "body"⟩ false =
      .resolved "body" ⟨some "newtok", some "rtok"⟩ :=
  ⟨rfl, rfl, rfl,
   (((api_401_refresh_once ⟨some "old", some "rtok"⟩ ⟨401, "unauthorized"⟩
       ⟨.ok "newtok", .ok "body"⟩).1 rfl).1 "newtok" rfl).1 "body" rfl⟩

/-- The seen-store only grows during the candidate loop. -/
theorem scanLoop_store_mono :
    ∀ (cands : List Listing) (aid : String) (seen : List SeenListing)
      (s : SeenListing), s ∈ seen → s ∈ (scanLoop aid seen cands).2 := by
  intro cands
  induction cands with
  | nil =>
    intro aid seen s hs
    simpa [scanLoop] using hs
  | cons a cs ih =>
    intro aid seen s hs
    by_cases h : (seen.any fun t => t.alert_id == aid && t.item_id == a.item_id) = true
    · simpa [scanLoop, h] using ih aid seen s hs
    · have h' : (seen.any fun t => t.alert_id == aid && t.item_id == a.item_id) = false := by
        simpa using h
      simpa [scanLoop, h'] using
        ih aid (seen ++ [{ alert_id := aid, item_id := a.item_id }]) s
          (List.mem_append_left _ hs)

/-- After the candidate loop, every candidate's composite key is recorded
in the store. -/
theorem scanLoop_records_all :
    ∀ (cands : List Listing) (aid : String) (seen : List SeenListing),
      ∀ c ∈ cands,
        ({ alert_id := aid, item_id := c.item_id } : SeenListing) ∈
          (scanLoop aid seen cands).2 := by
  intro cands
  induction cands with
  | nil =>
    intro aid seen c hc
    simp at hc
  | cons a cs ih =>
    intro aid seen c hc
    rcases List.mem_cons.mp hc with rfl | hc'
    · by_cases h : (seen.any fun t => t.alert_id == aid && t.item_id == c.item_id) = true
      · obtain ⟨s, hs, hmatch⟩ := List.any_eq_true.mp h
        have hkey : ({ alert_id := aid, item_id := c.item_id } : SeenListing) ∈ seen := by
          cases s with
          | mk sa si =>
            simp only [Bool.and_eq_true, beq_iff_eq] at hmatch
            obtain ⟨rfl, rfl⟩ := hmatch
            exact hs
        simpa [scanLoop, h] using scanLoop_store_mono cs aid seen _ hkey
      · have h' : (seen.any fun t => t.alert_id == aid && t.item_id == c.item_id) = false := by
          simpa using h
        simpa [scanLoop, h'] using
          scanLoop_store_mono cs aid (seen ++ [{ alert_id := aid, item_id := c.item_id }])
            { alert_id := aid, item_id := c.item_id } (by simp)
    · by_cases h : (seen.any fun t => t.alert_id == aid && t.item_id == a.item_id) = true
      · simpa [scanLoop, h] using ih aid seen c hc'
      · have h' : (seen.any fun t => t.alert_id == aid && t.item_id == a.item_id) = false := by
          simpa using h
        simpa [scanLoop, h'] using
          ih aid (seen ++ [{ alert_id := aid, item_id := a.item_id }]) c hc'

/-- If every candidate's key is already recorded, the candidate loop finds
nothing new and leaves the store unchanged. -/
theorem scanLoop_all_seen :
    ∀ (cands : List Listing) (aid : String) (seen : List SeenListing),
      (∀ c ∈ cands,
        ({ alert_id := aid, item_id := c.item_id } : SeenListing) ∈ seen) →
      scanLoop aid seen cands = ([], seen) := by
  intro cands
  induction cands with
  | nil =>
    intro aid seen _
    simp [scanLoop]
  | cons a cs ih =>
    intro aid seen h
    have hmem := h a (by simp)
    have hany : (seen.any fun t => t.alert_id == aid && t.item_id == a.item_id) = true :=
      List.any_eq_true.mpr ⟨_, hmem, by simp⟩
    simpa [scanLoop, hany] using ih aid seen fun c hc => h c (by simp [hc])

/-- The candidate loop preserves uniqueness of the `(alert_id, item_id)`
composite key. -/
theorem scanLoop_keysUnique :
    ∀ (cands : List Listing) (aid : String) (seen : List SeenListing),
      keysUnique seen → keysUnique (scanLoop aid seen cands).2 := by
  intro cands
  induction cands with
  | nil =>
    intro aid seen h
    simpa [scanLoop] using h
  | cons a cs ih =>
    intro aid seen h
    by_cases hany : (seen.any fun t => t.alert_id == aid && t.item_id == a.item_id) = true
    · simpa [scanLoop, hany] using ih aid seen h
    · have h' : (seen.any fun t => t.alert_id == aid && t.item_id == a.item_id) = false := by
        simpa using hany
      have hext : keysUnique (seen ++ [{ alert_id := aid, item_id := a.item_id }]) := by
        unfold keysUnique at h ⊢
        rw [List.pairwise_append]
        refine ⟨h, List.pairwise_singleton _ _, ?_⟩
        intro s hs b hb
        simp only [List.mem_singleton] at hb
        subst hb
        intro hcontra
        have : (seen.any fun t => t.alert_id == aid && t.item_id == a.item_id) = true :=
          List.any_eq_true.mpr ⟨s, hs, by simp [hcontra.1, hcontra.2]⟩
        rw [this] at h'
        exact absurd h' (by simp)
      simpa [scanLoop, h'] using
        ih aid (seen ++ [{ alert_id := aid, item_id := a.item_id }]) hext

/-- C2: for an alert whose `last_checked_at` is unset, a scan records every
candidate as seen and reports zero new items; concretely, a first scan of 50
candidates reports 0 new items and records 50 seen rows, and a subsequent
scan of those 50 plus 3 unseen candidates reports exactly 3 new items. -/
theorem first_run_baseline :
    (∀ (alert : Alert) (seen : List SeenListing) (cands : List Listing) (now : Nat),
      alert.last_checked_at = none →
      (runScan alert seen (.ok cands) now).1.newItems = [] ∧
      ∀ c ∈ cands,
        ({ alert_id := alert.id, item_id := c.item_id } : SeenListing) ∈
          (runScan alert seen (.ok cands) now).2.2) ∧
    (runScan alertA [] (.ok cands50) 100).1.newItems = [] ∧
    (runScan alertA [] (.ok cands50) 100).2.2.length = 50 ∧
    (runScan (runScan alertA [] (.ok cands50) 100).2.1
      (runScan alertA [] (.ok cands50) 100).2.2 (.ok cands53) 200).1.newItems.length = 3 := by
  refine ⟨?_, by decide, by decide, by decide⟩
  intro alert seen cands now hnone
  constructor
  · simp [runScan, hnone]
  · intro c hc
    simpa [runScan] using scanLoop_records_all cands alert.id seen c hc

/-- Witness for C2: the never-checked sample alert scanned over the 50
sample candidates reports nothing new and records candidate 7. -/
theorem first_run_baseline_witness :
    alertA.last_checked_at = none ∧
    mkListing 7 ∈ cands50 ∧
    (runScan alertA [] (.ok cands50) 100).1.newItems = [] ∧
    ({ alert_id := alertA.id, item_id := (mkListing 7).item_id } : SeenListing) ∈
      (runScan alertA [] (.ok cands50) 100).2.2 :=
  ⟨rfl, by decide, (first_run_baseline.1 alertA [] cands50 100 rfl).1,
   (first_run_baseline.1 alertA [] cands50 100 rfl).2 (mkListing 7) (by decide)⟩

/-- C3: re-running the same scan on an unchanged provider result set yields
zero new items, leaves the seen store exactly as the first run left it, and
the store keeps the composite `(alert_id, item_id)` key unique throughout. -/
theorem scan_idempotent :
    ∀ (alert : Alert) (seen : List SeenListing) (cands : List Listing) (now later : Nat),
      keysUnique seen →
      (runScan (runScan alert seen (.ok cands) now).2.1
        (runScan alert seen (.ok cands) now).2.2 (.ok cands) later).1.newItems = [] ∧
      (runScan (runScan alert seen (.ok cands) now).2.1
        (runScan alert seen (.ok cands) now).2.2 (.ok cands) later).2.2 =
        (runScan alert seen (.ok cands) now).2.2 ∧
      keysUnique (runScan alert seen (.ok cands) now).2.2 := by
  intro alert seen cands now later hu
  have hnoop :
      scanLoop alert.id (scanLoop alert.id seen cands).2 cands =
        ([], (scanLoop alert.id seen cands).2) :=
    scanLoop_all_seen cands alert.id _ fun c hc => scanLoop_records_all cands alert.id seen c hc
  refine ⟨?_, ?_, ?_⟩
  · simp [runScan, hnoop]
  · simp [runScan, hnoop]
  · simpa [runScan] using scanLoop_keysUnique cands alert.id seen hu

/-- Witness for C3: scanning the sample alert twice over the same 50
candidates yields no new items the second time. -/
theorem scan_idempotent_witness :
    keysUnique ([] : List SeenListing) ∧
    (runScan (runScan alertA [] (.ok cands50) 100).2.1
      (runScan alertA [] (.ok cands50) 100).2.2 (.ok cands50) 200).1.newItems = [] :=
  ⟨by unfold keysUnique; exact List.Pairwise.nil,
   (scan_idempotent alertA [] cands50 100 200 (by unfold keysUnique; exact List.Pairwise.nil)).1⟩

/-- Gate invariant: along any admitted trace, all calls of a segment come at
least the minimum interval after whatever the state records as that
segment's last call, and the segment's call times are pairwise spaced. -/
theorem validTrace_inv {s : GateState} {evs : List (String × Nat)}
    (h : ValidTrace s evs) (seg : String) :
    (∀ l, s.lastCall seg = some l → ∀ t ∈ segTimes seg evs, l + minCallInterval ≤ t) ∧
    (segTimes seg evs).Pairwise (fun a b => a + minCallInterval ≤ b) := by
  induction h with
  | nil s =>
    exact ⟨fun l _ t ht => by simp [segTimes] at ht, by simp [segTimes]⟩
  | cons step rest ih =>
    rename_i sA sB eA evsA
    cases step with
    | call seg' t hguard =>
      by_cases hseg : seg' = seg
      · subst hseg
        have hupd :
            (GateState.mk fun x => if x = seg' then some t else sA.lastCall x).lastCall seg' =
              some t := by
          simp
        have htail : ∀ u ∈ segTimes seg' evsA, t + minCallInterval ≤ u := ih.1 t hupd
        have hfilter : segTimes seg' ((seg', t) :: evsA) = t :: segTimes seg' evsA := by
          simp [segTimes]
        constructor
        · intro l hl u hu
          rw [hfilter] at hu
          rcases List.mem_cons.mp hu with rfl | hu'
          · exact hguard l hl
          · have h1 := hguard l hl
            have h2 := htail u hu'
            omega
        · rw [hfilter]
          exact List.pairwise_cons.mpr ⟨htail, ih.2⟩
      · have hseg2 : ¬ seg = seg' := fun hh => hseg hh.symm
        have hfilter : segTimes seg ((seg', t) :: evsA) = segTimes seg evsA := by
          simp [segTimes, hseg]
        constructor
        · intro l hl u hu
          rw [hfilter] at hu
          refine ih.1 l ?_ u hu
          simpa [hseg2] using hl
        · rw [hfilter]
          exact ih.2

/-- C1: any sequence of external calls admitted by the per-segment gate has,
for every segment, each pair of that segment's calls separated by at least
the configured minimum spacing — concurrent alerts for one segment
serialize through the gate, so no two of its calls are closer than
`minCallInterval`. -/
theorem segment_calls_spaced :
    ∀ evs : List (String × Nat), ValidTrace initGate evs →
      ∀ seg : String,
        (segTimes seg evs).Pairwise fun a b => a + minCallInterval ≤ b :=
  fun _ h seg => (validTrace_inv h seg).2

/-- The sample trace — "fr" at 0s, "de" at 5s, "fr" at 30s — is admitted by
the gate: the two "fr" calls are exactly the minimum interval apart and the
"de" call proceeds independently. -/
theorem traceW_valid : ValidTrace initGate traceW := by
  have h1 : GateStep initGate ("fr", 0) gateS1 :=
    GateStep.call initGate "fr" 0 fun l hl => by simp [initGate] at hl
  have h2 : GateStep gateS1 ("de", 5) gateS2 :=
    GateStep.call gateS1 "de" 5 fun l hl => by
      have hx : gateS1.lastCall "de" = none := by decide
      rw [hx] at hl
      exact Option.noConfusion hl
  have h3 : GateStep gateS2 ("fr", 30) gateS3 :=
    GateStep.call gateS2 "fr" 30 fun l hl => by
      have hx : gateS2.lastCall "fr" = some 0 := by decide
      rw [hx] at hl
      rw [← Option.some.inj hl]
      decide
  exact ValidTrace.cons h1 (ValidTrace.cons h2 (ValidTrace.cons h3 (ValidTrace.nil _)))

/-- Witness for C1: the sample trace satisfies the gate's admission
hypothesis, and its "fr" calls are pairwise at least 30 seconds apart. -/
theorem segment_calls_spaced_witness :
    ValidTrace initGate traceW ∧
    (segTimes "fr" traceW).Pairwise (fun a b => a + minCallInterval ≤ b) :=
  ⟨traceW_valid, segment_calls_spaced traceW traceW_valid "fr"⟩

/-- Structural invariant of `_cache_categories`: ids are fresh (within the
counter window), distinct, and every produced row either carries the passed
parent/level or points at another produced row one level up. -/
theorem cacheCategories_inv (cats : List CatData) (cc : String) (pid : Option Nat)
    (lvl : Nat) (pre : String) (ctr : Nat) :
    ctr ≤ (cacheCategories cats cc pid lvl pre ctr).2 ∧
    (∀ r ∈ (cacheCategories cats cc pid lvl pre ctr).1,
      ctr ≤ r.id ∧ r.id < (cacheCategories cats cc pid lvl pre ctr).2) ∧
    (∀ r ∈ (cacheCategories cats cc pid lvl pre ctr).1,
      (r.parent_id = pid ∧ r.level = lvl) ∨
      ∃ p ∈ (cacheCategories cats cc pid lvl pre ctr).1,
        r.parent_id = some p.id ∧ r.level = p.level + 1) ∧
    ∀ r ∈ (cacheCategories cats cc pid lvl pre ctr).1,
      ∀ q ∈ (cacheCategories cats cc pid lvl pre ctr).1, r.id = q.id → r = q := by
  match cats with
  | [] =>
    simp [cacheCategories]
  | .node vid title cnt children :: cs =>
    simp only [cacheCategories]
    have ihc := cacheCategories_inv children cc (some ctr) (lvl + 1) (pre ++ "/" ++ title)
      (ctr + 1)
    have ihr := cacheCategories_inv cs cc pid lvl pre
      (cacheCategories children cc (some ctr) (lvl + 1) (pre ++ "/" ++ title) (ctr + 1)).2
    obtain ⟨ihc1, ihc2, ihc3, ihc4⟩ := ihc
    obtain ⟨ihr1, ihr2, ihr3, ihr4⟩ := ihr
    refine ⟨by omega, ?_, ?_, ?_⟩
    · intro r hr
      rcases List.mem_cons.mp hr with rfl | hmem
      · refine ⟨by simp, ?_⟩
        simp only
        omega
      · rcases List.mem_append.mp hmem with hc | hrr
        · have := ihc2 r hc
          omega
        · have := ihr2 r hrr
          omega
    · intro r hr
      rcases List.mem_cons.mp hr with rfl | hmem
      · exact Or.inl ⟨rfl, rfl⟩
      · rcases List.mem_append.mp hmem with hc | hrr
        · rcases ihc3 r hc with ⟨hp, hl⟩ | ⟨p, hpmem, hp, hl⟩
          · refine Or.inr ⟨_, List.mem_cons_self _ _, ?_, ?_⟩
            · simpa using hp
            · simpa using hl
          · exact Or.inr ⟨p, List.mem_cons_of_mem _ (List.mem_append_left _ hpmem), hp, hl⟩
        · rcases ihr3 r hrr with h | ⟨p, hpmem, hp, hl⟩
          · exact Or.inl h
          · exact Or.inr ⟨p, List.mem_cons_of_mem _ (List.mem_append_right _ hpmem), hp, hl⟩
    · intro r hr q hq heq
      rcases List.mem_cons.mp hr with rfl | hmemr
      · rcases List.mem_cons.mp hq with rfl | hmemq
        · rfl
        · exfalso
          rcases List.mem_append.mp hmemq with hc | hrr
          · have := ihc2 q hc
            simp only at heq
            omega
          · have := ihr2 q hrr
            simp only at heq
            omega
      · rcases List.mem_cons.mp hq with rfl | hmemq
        · exfalso
          rcases List.mem_append.mp hmemr with hc | hrr
          · have := ihc2 r hc
            simp only at heq
            omega
          · have := ihr2 r hrr
            simp only at heq
            omega
        · rcases List.mem_append.mp hmemr with hcr | hrr
          · rcases List.mem_append.mp hmemq with hcq | hrq
            · exact ihc4 r hcr q hcq heq
            · exfalso
              have h1 := ihc2 r hcr
              have h2 := ihr2 q hrq
              omega
          · rcases List.mem_append.mp hmemq with hcq | hrq
            · exfalso
              have h1 := ihr2 r hrr
              have h2 := ihc2 q hcq
              omega
            · exact ihr4 r hrr q hrq heq

/-- If parent links raise the level by exactly one, every proper ancestor
sits at a strictly lower level. -/
theorem ancestor_level_lt {rows : List Category}
    (hpl : ∀ r ∈ rows, ∀ p ∈ rows, r.parent_id = some p.id → r.level = p.level + 1) :
    ∀ {p r : Category}, IsAncestor rows p r → p.level < r.level := by
  intro p r h
  induction h with
  | parent hp hr hpar =>
    have := hpl _ hr _ hp hpar
    omega
  | trans h1 h2 ih1 ih2 =>
    omega

/-- C7: in the cached category forest of any segment, every child row's
level is its parent row's level plus one, and no row is its own ancestor
through the parent links. -/
theorem category_tree_levels_and_acyclic :
    ∀ (cats : List CatData) (cc : String),
      (∀ r ∈ (cacheCategories cats cc none 0 "" 0).1,
        ∀ p ∈ (cacheCategories cats cc none 0 "" 0).1,
          r.parent_id = some p.id → r.level = p.level + 1) ∧
      ∀ r : Category, ¬ IsAncestor (cacheCategories cats cc none 0 "" 0).1 r r := by
  intro cats cc
  obtain ⟨-, -, hpar, hinj⟩ := cacheCategories_inv cats cc none 0 "" 0
  have hpl : ∀ r ∈ (cacheCategories cats cc none 0 "" 0).1,
      ∀ p ∈ (cacheCategories cats cc none 0 "" 0).1,
        r.parent_id = some p.id → r.level = p.level + 1 := by
    intro r hr p hp hlink
    rcases hpar r hr with ⟨hnone, _⟩ | ⟨p2, hp2, hlink2, hlvl⟩
    · rw [hnone] at hlink
      exact Option.noConfusion hlink
    · rw [hlink] at hlink2
      have hid := Option.some.inj hlink2
      have hpq := hinj p hp p2 hp2 hid
      rw [hpq]
      exact hlvl
  refine ⟨hpl, ?_⟩
  intro r hcyc
  exact absurd (ancestor_level_lt hpl hcyc) (lt_irrefl _)

/-- Witness for C7: in the cached rows of the sample tree, the child row
points at the root row, its level is the root's plus one, and the root is
not its own ancestor. -/
theorem category_tree_levels_witness :
    rowW1 ∈ (cacheCategories catsW "fr" none 0 "" 0).1 ∧
    rowW0 ∈ (cacheCategories catsW "fr" none 0 "" 0).1 ∧
    rowW1.parent_id = some rowW0.id ∧
    rowW1.level = rowW0.level + 1 ∧
    ¬ IsAncestor (cacheCategories catsW "fr" none 0 "" 0).1 rowW0 rowW0 := by
  have hm1 : rowW1 ∈ (cacheCategories catsW "fr" none 0 "" 0).1 := by
    simp [catsW, cacheCategories, rowW1]
  have hm0 : rowW0 ∈ (cacheCategories catsW "fr" none 0 "" 0).1 := by
    simp [catsW, cacheCategories, rowW0]
  exact ⟨hm1, hm0, rfl,
    (category_tree_levels_and_acyclic catsW "fr").1 rowW1 hm1 rowW0 hm0 rfl,
    (category_tree_levels_and_acyclic catsW "fr").2 rowW0⟩

end VintScout
